import Mathlib

/-!
Shallow embedding of `src/presenter.rs` from the cargo-audit report
presenter, together with proofs of the specification claims about it.

The presenter consumes a `rustsec::Report` and a `Lockfile` and emits a
sequence of terminal output events.  We model the output stream as a
`List OutputEvent`, the mutable `displayed_packages : BTreeSet<Dependency>`
field as an explicit `List Dependency` threaded through the calls, and a
Rust panic (`expect` / map indexing) as the `RunResult.fatal` constructor,
which carries the output already emitted before the abort.
-/

namespace CargoAudit

/-- Package identity used by `cargo_lock::dependency::Dependency`
(name, version and source origin); this is the key of the dedup set and
of the dependency-tree node map. -/
structure Dependency where
  name : String
  version : String
  source : Option String
deriving DecidableEq, Repr

/-- A `cargo_lock::Package` as far as the presenter reads it
(`package.name`, `package.version`, and the fields `Dependency::from`
copies).  The version is kept in its displayed (string) form since the
presenter only ever calls `to_string()` on it. -/
structure Package where
  name : String
  version : String
  source : Option String
deriving DecidableEq, Repr

/-- The conversion `Dependency::from(package.clone())` performed at both
call sites in `print_tree`. -/
def Dependency.fromPackage (p : Package) : Dependency :=
  ⟨p.name, p.version, p.source⟩

/-- The two terminal colors the presenter uses (`Color::Red`,
`Color::Yellow`). -/
inductive Color where
  | red
  | yellow
deriving DecidableEq, Repr

/-- An advisory identifier.  `canonicalUrl` models the external pure
function `rustsec::advisory::Id::url()`, which resolves an identifier to
its canonical URL when one exists; `name` is the identifier text that
`print_attr` displays. -/
structure AdvisoryId where
  name : String
  canonicalUrl : Option String
deriving DecidableEq, Repr

/-- The advisory metadata fields read by the renderers: `id`, `date`,
`title` and the explicit fallback `url` field. -/
structure Advisory where
  id : AdvisoryId
  date : String
  title : String
  url : Option String
deriving DecidableEq, Repr

/-- The `versions` field of a vulnerability; `patched` holds the patched
version requirements in their displayed (string) form, since the
presenter only ever maps `ToString::to_string` over them. -/
structure VersionInfo where
  patched : List String
deriving DecidableEq, Repr

/-- A `rustsec::Vulnerability` as far as the presenter reads it. -/
structure Vulnerability where
  advisory : Advisory
  package : Package
  versions : VersionInfo
deriving DecidableEq, Repr

/-- A `rustsec::Warning` as far as the presenter reads it. -/
structure Warning where
  advisory : Advisory
  package : Package
deriving DecidableEq, Repr

/-- The `report.vulnerabilities` record: the `found` flag, the `count`
field and the ordered list of vulnerabilities. -/
structure VulnerabilityInfo where
  found : Bool
  count : Nat
  list : List Vulnerability
deriving DecidableEq, Repr

/-- A `rustsec::Report` as far as the presenter reads it. -/
structure Report where
  vulnerabilities : VulnerabilityInfo
  warnings : List Warning
deriving DecidableEq, Repr

/-- Modelled from the spec: the output format enum of `crate::config`
(not under `src/`).  The spec calls the two modes Human and Structured;
in the code the structured variant is `OutputFormat::Json`, which is the
variant `print_report` compares against, and the human mode is the
terminal variant. -/
inductive OutputFormat where
  | Terminal
  | Json
deriving DecidableEq, Repr

/-- Modelled from the spec: the `crate::config::OutputConfig` fields the
presenter reads (`format`, `show_tree`; `quiet` is only read through
`is_quiet` in `before_report`, which no claim touches). -/
structure OutputConfig where
  format : OutputFormat
  quiet : Bool
  show_tree : Option Bool
deriving DecidableEq, Repr

/-- The dependency tree obtained from `lockfile.dependency_tree()`:
`nodes` models the `tree.nodes()` map from package identity to graph
node index. -/
structure Tree where
  nodes : List (Dependency × Nat)
deriving DecidableEq, Repr

/-- Node lookup in the `tree.nodes()` map; `none` models the key being
absent (where the Rust `BTreeMap` index operator panics). -/
def Tree.nodeOf (t : Tree) (d : Dependency) : Option Nat :=
  (t.nodes.find? (fun p => p.1 = d)).map (fun p => p.2)

/-- A lockfile as far as the presenter reads it: its package list (for
`before_report`) and the result of the external `dependency_tree()`
call, with `none` modelling the `Err` case on which `expect` panics. -/
structure Lockfile where
  packages : List Package
  dependency_tree : Option Tree
deriving DecidableEq, Repr

/-- One event on the output stream.  `statusOk`/`statusErr`/`statusWarn`
are the `status_ok!`/`status_err!`/`status_warn!` macros, `blank` is
`println!()`, `attr` is one `print_attr` line, `treeHeader` is the bold
"Dependency tree:" status line, `treeRender` is the external
`tree.render` call for the node looked up from the given identity, and
`json` is the `serde_json::to_writer` serialization of the report. -/
inductive OutputEvent where
  | statusOk (label content : String)
  | statusErr (content : String)
  | statusWarn (content : String)
  | blank
  | attr (color : Color) (label content : String)
  | treeHeader (color : Color)
  | treeRender (dep : Dependency) (node : Nat)
  | json (report : Report)
deriving DecidableEq, Repr

/-- Result of running a presenter fragment: `ok` carries the emitted
output and the updated `displayed_packages` set; `fatal` models a panic,
carrying the output emitted before the abort and the panic message. -/
inductive RunResult where
  | ok (out : List OutputEvent) (displayed : List Dependency)
  | fatal (out : List OutputEvent) (msg : String)
deriving DecidableEq, Repr

/-- The output emitted by a fragment, whether or not it aborted. -/
def RunResult.output : RunResult → List OutputEvent
  | .ok out _ => out
  | .fatal out _ => out

/-- Sequencing of presenter fragments: run `r`; if it aborted, the run
ends there; otherwise continue with the updated displayed set,
concatenating the output. -/
def RunResult.andThen (r : RunResult) (f : List Dependency → RunResult) : RunResult :=
  match r with
  | .ok out d =>
    match f d with
    | .ok out2 d2 => .ok (out ++ out2) d2
    | .fatal out2 m => .fatal (out ++ out2) m
  | .fatal out m => .fatal out m

/-- `Presenter::print_attr`: one bold colored labeled line. -/
def print_attr (color : Color) (attr content : String) : List OutputEvent :=
  [.attr color attr content]

/-- `Presenter::print_tree`: show the inverse dependency tree once per
package.  The identity is inserted into `displayed_packages` first
(`BTreeSet::insert` returning `false` causes the early return); then the
`show_tree` flag is consulted; then the header is printed, the node is
looked up by unguarded indexing (a missing node panics), and the tree is
rendered along incoming edges. -/
def print_tree (displayed : List Dependency) (config : OutputConfig)
    (color : Color) (package : Package) (tree : Tree) : RunResult :=
  if Dependency.fromPackage package ∈ displayed then
    .ok [] displayed
  else if (config.show_tree.getD true) = false then
    .ok [] (Dependency.fromPackage package :: displayed)
  else
    match tree.nodeOf (Dependency.fromPackage package) with
    | some n =>
      .ok [.treeHeader color, .treeRender (Dependency.fromPackage package) n]
        (Dependency.fromPackage package :: displayed)
    | none => .fatal [.treeHeader color] "no entry found for key"

/-- The attribute lines of `Presenter::print_vulnerability` before the
tree display: leading blank line, ID, Crate, Version, Date, the URL line
with canonical-URL-over-explicit-field precedence, Title, and the
Solution line joining the patched ranges with " OR ". -/
def vulnerability_attrs (vulnerability : Vulnerability) : List OutputEvent :=
  [.blank] ++
  print_attr .red "ID:      " vulnerability.advisory.id.name ++
  print_attr .red "Crate:   " vulnerability.package.name ++
  print_attr .red "Version: " vulnerability.package.version ++
  print_attr .red "Date:    " vulnerability.advisory.date ++
  (match vulnerability.advisory.id.canonicalUrl with
   | some url => print_attr .red "URL:     " url
   | none =>
     match vulnerability.advisory.url with
     | some url => print_attr .red "URL:     " url
     | none => []) ++
  print_attr .red "Title:   " vulnerability.advisory.title ++
  print_attr .red "Solution: upgrade to"
    (String.intercalate " OR " vulnerability.versions.patched)

/-- `Presenter::print_vulnerability`: the attribute lines followed by
the deduplicated tree display at critical (red) color. -/
def print_vulnerability (displayed : List Dependency) (config : OutputConfig)
    (vulnerability : Vulnerability) (tree : Tree) : RunResult :=
  (RunResult.ok (vulnerability_attrs vulnerability) displayed).andThen
    (fun d => print_tree d config .red vulnerability.package tree)

/-- The attribute lines of `Presenter::print_warning` before the tree
display: leading blank line, Crate (yellow), Title (red, with the
source's shorter "Title: " label), Date (red), and the URL line in
yellow with the same precedence rule as for vulnerabilities. -/
def warning_attrs (warning : Warning) : List OutputEvent :=
  [.blank] ++
  print_attr .yellow "Crate:   " warning.package.name ++
  print_attr .red "Title: " warning.advisory.title ++
  print_attr .red "Date:    " warning.advisory.date ++
  (match warning.advisory.id.canonicalUrl with
   | some url => print_attr .yellow "URL:     " url
   | none =>
     match warning.advisory.url with
     | some url => print_attr .yellow "URL:     " url
     | none => [])

/-- `Presenter::print_warning`: the attribute lines followed by the
deduplicated tree display at informational (yellow) color. -/
def print_warning (displayed : List Dependency) (config : OutputConfig)
    (warning : Warning) (tree : Tree) : RunResult :=
  (RunResult.ok (warning_attrs warning) displayed).andThen
    (fun d => print_tree d config .yellow warning.package tree)

/-- The `for vulnerability in &report.vulnerabilities.list` loop of
`print_report`, threading the displayed set left to right. -/
def print_vulnerability_list (displayed : List Dependency) (config : OutputConfig)
    (vulnerabilities : List Vulnerability) (tree : Tree) : RunResult :=
  match vulnerabilities with
  | [] => .ok [] displayed
  | v :: rest =>
    (print_vulnerability displayed config v tree).andThen
      (fun d => print_vulnerability_list d config rest tree)

/-- The `for warning in &report.warnings` loop of `print_report`. -/
def print_warning_list (displayed : List Dependency) (config : OutputConfig)
    (warnings : List Warning) (tree : Tree) : RunResult :=
  match warnings with
  | [] => .ok [] displayed
  | w :: rest =>
    (print_warning displayed config w tree).andThen
      (fun d => print_warning_list d config rest tree)

/-- The initial status line of the human-mode report: failure status if
`report.vulnerabilities.found`, success status otherwise. -/
def statusLine (report : Report) : OutputEvent :=
  if report.vulnerabilities.found then .statusErr "Vulnerable crates found!"
  else .statusOk "Success" "No vulnerable packages found"

/-- The warnings section of `print_report`: nothing when there are no
warnings, otherwise a blank separator, the warning-section header, and
the warning loop. -/
def warningsBlock (displayed : List Dependency) (config : OutputConfig)
    (warnings : List Warning) (tree : Tree) : RunResult :=
  if warnings.isEmpty then
    .ok [] displayed
  else
    (RunResult.ok [.blank, .statusWarn "found informational advisories for dependencies"]
        displayed).andThen
      (fun d => print_warning_list d config warnings tree)

/-- The final count block of `print_report`: when
`report.vulnerabilities.found`, a blank separator and the count line,
singular for `count == 1` and plural otherwise, formatted from the
report's `count` field. -/
def countBlock (report : Report) : List OutputEvent :=
  if report.vulnerabilities.found then
    [.blank,
     .statusErr (if report.vulnerabilities.count = 1 then "1 vulnerability found!"
                 else toString report.vulnerabilities.count ++ " vulnerabilities found!")]
  else []

/-- `Presenter::print_report`: in JSON (structured) mode, serialize the
report and return; otherwise print the status line, obtain the
dependency tree (`expect` panics on an invalid lockfile), run the
vulnerability loop, the warnings section, and the final count block. -/
def print_report (displayed : List Dependency) (config : OutputConfig)
    (report : Report) (lockfile : Lockfile) : RunResult :=
  if config.format = OutputFormat.Json then
    .ok [.json report] displayed
  else
    match lockfile.dependency_tree with
    | none => .fatal [statusLine report] "invalid Cargo.lock dependency tree"
    | some tree =>
      (RunResult.ok [statusLine report] displayed).andThen (fun d =>
        (print_vulnerability_list d config report.vulnerabilities.list tree).andThen (fun d2 =>
          (warningsBlock d2 config report.warnings tree).andThen (fun d3 =>
            RunResult.ok (countBlock report) d3)))

/-- The identities of the packages of all findings of a report, in
presentation order: vulnerabilities first, then warnings. -/
def findingDeps (report : Report) : List Dependency :=
  report.vulnerabilities.list.map (fun v => Dependency.fromPackage v.package) ++
  report.warnings.map (fun w => Dependency.fromPackage w.package)

/-- Number of inverse-dependency-tree drawings for identity `d` in an
output stream. -/
def countDraws (d : Dependency) (out : List OutputEvent) : Nat :=
  out.countP (fun e =>
    match e with
    | .treeRender d2 _ => decide (d2 = d)
    | _ => false)

/-- Generic projection of an output stream to the contents selected by
`sel`. -/
def linesBy (sel : OutputEvent → Option String) (out : List OutputEvent) : List String :=
  out.filterMap sel

/-- Selector for vulnerability ID lines (red attribute lines labeled
"ID:      "). -/
def idSel : OutputEvent → Option String :=
  fun e =>
    match e with
    | .attr c l s => if c = Color.red ∧ l = "ID:      " then some s else none
    | _ => none

/-- Selector for warning crate lines (yellow attribute lines labeled
"Crate:   "): only the warning renderer emits these. -/
def warnCrateSel : OutputEvent → Option String :=
  fun e =>
    match e with
    | .attr c l s => if c = Color.yellow ∧ l = "Crate:   " then some s else none
    | _ => none

/-- Selector for URL lines of either renderer. -/
def urlSel : OutputEvent → Option String :=
  fun e =>
    match e with
    | .attr _ l s => if l = "URL:     " then some s else none
    | _ => none

/-- Selector for the Solution line of the vulnerability renderer. -/
def solutionSel : OutputEvent → Option String :=
  fun e =>
    match e with
    | .attr _ l s => if l = "Solution: upgrade to" then some s else none
    | _ => none

/-- Selector for `status_err!` lines. -/
def statusErrSel : OutputEvent → Option String :=
  fun e =>
    match e with
    | .statusErr s => some s
    | _ => none

/-- Shorthand projections used by the claim statements. -/
def idLines (out : List OutputEvent) : List String := linesBy idSel out

/-- Warning crate lines of an output stream. -/
def warnCrateLines (out : List OutputEvent) : List String := linesBy warnCrateSel out

/-- URL lines of an output stream. -/
def urlLines (out : List OutputEvent) : List String := linesBy urlSel out

/-- Solution lines of an output stream. -/
def solutionLines (out : List OutputEvent) : List String := linesBy solutionSel out

/-- Error status lines of an output stream. -/
def statusErrLines (out : List OutputEvent) : List String := linesBy statusErrSel out

/-- The URL-line contents prescribed by the spec's precedence rule, for
comparison with the renderers: the canonical URL of the identifier when
it exists, otherwise the advisory's explicit `url` field, otherwise
nothing. -/
def urlChoice (advisory : Advisory) : List String :=
  match advisory.id.canonicalUrl with
  | some u => [u]
  | none =>
    match advisory.url with
    | some u => [u]
    | none => []

/-- Segment specification.  `SegSpec st deps disp r` says: whenever the
presenter fragment `r`, started with displayed set `disp`, finishes
without aborting, the final displayed set is `disp` extended with
exactly the identities `deps`, and identity `x`'s tree was drawn exactly
once if the `show_tree` resolution `st` is true and `x` is a fresh
finding identity, and never otherwise. -/
def SegSpec (st : Bool) (deps disp : List Dependency) (r : RunResult) : Prop :=
  ∀ out d', r = .ok out d' →
    (∀ x, x ∈ d' ↔ x ∈ disp ∨ x ∈ deps) ∧
    (∀ x, countDraws x out = if st = true ∧ x ∈ deps ∧ x ∉ disp then 1 else 0)

/-- A selector that ignores the tree-drawing events, so that its
projection of any `print_tree` output is empty. -/
def TreeBlind (sel : OutputEvent → Option String) : Prop :=
  (∀ c, sel (.treeHeader c) = none) ∧ ∀ d n, sel (.treeRender d n) = none

/-! ## Concrete data for evaluating the development -/

/-- A sample package. -/
def samplePackage : Package := ⟨"adler", "1.0.0", some "registry"⟩

/-- The identity of the sample package. -/
def sampleDep : Dependency := Dependency.fromPackage samplePackage

/-- A sample advisory whose identifier has a canonical URL and which
also carries an explicit fallback URL. -/
def sampleAdvisory : Advisory :=
  ⟨⟨"RUSTSEC-2020-0001", some "https://rustsec.org/advisories/RUSTSEC-2020-0001"⟩,
   "2020-02-03", "Example advisory", some "https://example.com/adv"⟩

/-- A sample vulnerability for the sample package. -/
def sampleVuln : Vulnerability := ⟨sampleAdvisory, samplePackage, ⟨["1.2.3", "2.0.0"]⟩⟩

/-- A sample warning referring to the same package as the sample
vulnerability. -/
def sampleWarning : Warning := ⟨sampleAdvisory, samplePackage⟩

/-- A dependency tree containing the sample package. -/
def sampleTree : Tree := ⟨[(sampleDep, 0)]⟩

/-- A lockfile whose dependency tree is valid. -/
def sampleLockfile : Lockfile := ⟨[samplePackage], some sampleTree⟩

/-- A lockfile whose dependency-tree computation fails. -/
def badLockfile : Lockfile := ⟨[samplePackage], none⟩

/-- A dependency tree with no nodes at all. -/
def emptyTree : Tree := ⟨[]⟩

/-- Human-mode configuration with `show_tree` unset (defaulting to
true). -/
def humanConfig : OutputConfig := ⟨OutputFormat.Terminal, false, none⟩

/-- Human-mode configuration with `show_tree` explicitly false. -/
def noTreeConfig : OutputConfig := ⟨OutputFormat.Terminal, false, some false⟩

/-- Structured-mode configuration, with `show_tree` explicitly true to
exercise that structured mode ignores it. -/
def jsonConfig : OutputConfig := ⟨OutputFormat.Json, false, some true⟩

/-- A sample report in which the same package identity appears in two
findings (one vulnerability and one warning), with a `count` field that
deliberately differs from the length of the vulnerability list. -/
def sampleReport : Report := ⟨⟨true, 3, [sampleVuln]⟩, [sampleWarning]⟩

/-- The first human-mode presentation run on the sample report. -/
def sampleRun : RunResult := print_report [] humanConfig sampleReport sampleLockfile

/-- Output of the first sample run. -/
def sampleOut : List OutputEvent := sampleRun.output

/-- Displayed set after the first sample run. -/
def sampleDisp : List Dependency :=
  match sampleRun with
  | .ok _ d => d
  | .fatal _ _ => []

/-- A second presentation run on the same presenter state (the
displayed set left by the first run). -/
def sampleRun2 : RunResult := print_report sampleDisp humanConfig sampleReport sampleLockfile

/-- Output of the second sample run. -/
def sampleOut2 : List OutputEvent := sampleRun2.output

/-- Displayed set after the second sample run. -/
def sampleDisp2 : List Dependency :=
  match sampleRun2 with
  | .ok _ d => d
  | .fatal _ _ => []

/-- The vulnerability loop of the first sample run, in isolation. -/
def sampleVulnListRun : RunResult :=
  print_vulnerability_list [] humanConfig sampleReport.vulnerabilities.list sampleTree

/-- Output of the sample vulnerability loop. -/
def sampleVout : List OutputEvent := sampleVulnListRun.output

/-- Displayed set after the sample vulnerability loop. -/
def sampleD1 : List Dependency :=
  match sampleVulnListRun with
  | .ok _ d => d
  | .fatal _ _ => []

/-- The warnings section of the first sample run, in isolation. -/
def sampleWarnBlockRun : RunResult :=
  warningsBlock sampleD1 humanConfig sampleReport.warnings sampleTree

/-- Output of the sample warnings section. -/
def sampleWout : List OutputEvent := sampleWarnBlockRun.output

/-- Displayed set after the sample warnings section. -/
def sampleDfin : List Dependency :=
  match sampleWarnBlockRun with
  | .ok _ d => d
  | .fatal _ _ => []

/-! ## Basic sequencing lemmas -/

theorem RunResult.ok_andThen_output (o : List OutputEvent) (d : List Dependency)
    (f : List Dependency → RunResult) :
    ((RunResult.ok o d).andThen f).output = o ++ (f d).output := by
  unfold RunResult.andThen
  cases hf : f d <;> simp [hf, RunResult.output]

theorem RunResult.andThen_ok_elim {r : RunResult} {f : List Dependency → RunResult}
    {out : List OutputEvent} {d' : List Dependency} (h : r.andThen f = .ok out d') :
    ∃ out1 d1 out2, r = .ok out1 d1 ∧ f d1 = .ok out2 d' ∧ out = out1 ++ out2 := by
  cases r with
  | fatal o m => simp [RunResult.andThen] at h
  | ok o d =>
    cases hf : f d with
    | fatal o2 m =>
      rw [RunResult.andThen, hf] at h
      exact absurd h (by simp)
    | ok o2 d2 =>
      rw [RunResult.andThen, hf] at h
      obtain ⟨h1, h2⟩ := RunResult.ok.inj h
      exact ⟨o, d, o2, rfl, by rw [hf, h2], h1.symm⟩

theorem RunResult.andThen_ok_intro {r : RunResult} {f : List Dependency → RunResult}
    {out1 out2 : List OutputEvent} {d1 d2 : List Dependency}
    (h1 : r = .ok out1 d1) (h2 : f d1 = .ok out2 d2) :
    r.andThen f = .ok (out1 ++ out2) d2 := by
  subst h1
  rw [RunResult.andThen, h2]

theorem countDraws_append (x : Dependency) (a b : List OutputEvent) :
    countDraws x (a ++ b) = countDraws x a + countDraws x b := by
  unfold countDraws
  exact List.countP_append _ _ _

/-! ## Segment specification lemmas -/

theorem segSpec_pure (st : Bool) (disp : List Dependency) (out0 : List OutputEvent)
    (h : ∀ x, countDraws x out0 = 0) : SegSpec st [] disp (.ok out0 disp) := by
  intro out d' he
  obtain ⟨h1, h2⟩ := RunResult.ok.inj he
  subst h1; subst h2
  refine ⟨fun x => by simp, fun x => by simp [h x]⟩

theorem segSpec_comp {st : Bool} {A B disp : List Dependency} {r : RunResult}
    {f : List Dependency → RunResult} (hA : SegSpec st A disp r)
    (hB : ∀ d, SegSpec st B d (f d)) : SegSpec st (A ++ B) disp (r.andThen f) := by
  intro out d' h
  obtain ⟨o1, d1, o2, h1, h2, h3⟩ := RunResult.andThen_ok_elim h
  obtain ⟨m1, c1⟩ := hA o1 d1 h1
  obtain ⟨m2, c2⟩ := hB d1 o2 d' h2
  subst h3
  refine ⟨fun x => ?_, fun x => ?_⟩
  · rw [m2 x, m1 x, List.mem_append]
    tauto
  · rw [countDraws_append, c1 x, c2 x]
    by_cases hst : st = true
    · by_cases hd : x ∈ disp
      · have hxd1 : x ∈ d1 := (m1 x).2 (Or.inl hd)
        simp [hst, hd, hxd1]
      · by_cases hA1 : x ∈ A
        · have hxd1 : x ∈ d1 := (m1 x).2 (Or.inr hA1)
          simp [hst, hd, hA1, hxd1, List.mem_append]
        · have hxd1 : x ∉ d1 := fun hx => by
            rcases (m1 x).1 hx with hc | hc
            · exact hd hc
            · exact hA1 hc
          by_cases hB1 : x ∈ B <;>
            simp [hst, hd, hA1, hxd1, hB1, List.mem_append]
    · simp [hst]

theorem print_tree_seg (disp : List Dependency) (cfg : OutputConfig) (c : Color)
    (p : Package) (tree : Tree) :
    SegSpec (cfg.show_tree.getD true) [Dependency.fromPackage p] disp
      (print_tree disp cfg c p tree) := by
  intro out d' h
  unfold print_tree at h
  by_cases hmem : Dependency.fromPackage p ∈ disp
  · rw [if_pos hmem] at h
    obtain ⟨h1, h2⟩ := RunResult.ok.inj h
    subst h1; subst h2
    refine ⟨fun x => ?_, fun x => ?_⟩
    · constructor
      · exact Or.inl
      · rintro (hx | hx)
        · exact hx
        · rw [List.mem_singleton] at hx
          exact hx ▸ hmem
    · have : ¬(x ∈ [Dependency.fromPackage p] ∧ x ∉ disp) := by
        rintro ⟨hx, hnx⟩
        rw [List.mem_singleton] at hx
        exact hnx (hx ▸ hmem)
      simp only [countDraws, List.countP_nil]
      rw [if_neg (by tauto)]
  · rw [if_neg hmem] at h
    by_cases hst : (cfg.show_tree.getD true) = false
    · rw [if_pos hst] at h
      obtain ⟨h1, h2⟩ := RunResult.ok.inj h
      subst h1; subst h2
      refine ⟨fun x => by simp [or_comm], fun x => ?_⟩
      simp only [countDraws, List.countP_nil]
      rw [if_neg (by simp [hst])]
    · rw [if_neg hst] at h
      cases hn : tree.nodeOf (Dependency.fromPackage p) with
      | none =>
        rw [hn] at h
        exact absurd h (by simp)
      | some n =>
        rw [hn] at h
        obtain ⟨h1, h2⟩ := RunResult.ok.inj h
        subst h1; subst h2
        refine ⟨fun x => by simp [or_comm], fun x => ?_⟩
        have hstt : (cfg.show_tree.getD true) = true := by
          cases hv : cfg.show_tree.getD true
          · exact absurd hv hst
          · rfl
        by_cases hx : x = Dependency.fromPackage p
        · subst hx
          simp [countDraws, List.countP_cons, hstt, hmem]
        · have : ¬(Dependency.fromPackage p = x) := fun hc => hx hc.symm
          simp [countDraws, List.countP_cons, this, hx, hstt, hmem]

theorem countDraws_vulnerability_attrs (x : Dependency) (v : Vulnerability) :
    countDraws x (vulnerability_attrs v) = 0 := by
  unfold vulnerability_attrs print_attr
  cases v.advisory.id.canonicalUrl <;> cases v.advisory.url <;>
    simp [countDraws, List.countP_append, List.countP_cons]

theorem countDraws_warning_attrs (x : Dependency) (w : Warning) :
    countDraws x (warning_attrs w) = 0 := by
  unfold warning_attrs print_attr
  cases w.advisory.id.canonicalUrl <;> cases w.advisory.url <;>
    simp [countDraws, List.countP_append, List.countP_cons]

theorem print_vulnerability_seg (disp : List Dependency) (cfg : OutputConfig)
    (v : Vulnerability) (tree : Tree) :
    SegSpec (cfg.show_tree.getD true) [Dependency.fromPackage v.package] disp
      (print_vulnerability disp cfg v tree) := by
  have h0 : SegSpec (cfg.show_tree.getD true) [] disp
      (.ok (vulnerability_attrs v) disp) :=
    segSpec_pure _ _ _ (fun x => countDraws_vulnerability_attrs x v)
  have h := segSpec_comp h0 (fun d => print_tree_seg d cfg .red v.package tree)
  simpa [print_vulnerability] using h

theorem print_warning_seg (disp : List Dependency) (cfg : OutputConfig)
    (w : Warning) (tree : Tree) :
    SegSpec (cfg.show_tree.getD true) [Dependency.fromPackage w.package] disp
      (print_warning disp cfg w tree) := by
  have h0 : SegSpec (cfg.show_tree.getD true) [] disp
      (.ok (warning_attrs w) disp) :=
    segSpec_pure _ _ _ (fun x => countDraws_warning_attrs x w)
  have h := segSpec_comp h0 (fun d => print_tree_seg d cfg .yellow w.package tree)
  simpa [print_warning] using h

theorem print_vulnerability_list_seg (cfg : OutputConfig) (tree : Tree)
    (vs : List Vulnerability) (disp : List Dependency) :
    SegSpec (cfg.show_tree.getD true) (vs.map (fun v => Dependency.fromPackage v.package))
      disp (print_vulnerability_list disp cfg vs tree) := by
  induction vs generalizing disp with
  | nil =>
    exact segSpec_pure _ _ _ (fun x => by simp [countDraws])
  | cons v rest ih =>
    have h := segSpec_comp (print_vulnerability_seg disp cfg v tree) (fun d => ih d)
    simpa [print_vulnerability_list] using h

theorem print_warning_list_seg (cfg : OutputConfig) (tree : Tree)
    (ws : List Warning) (disp : List Dependency) :
    SegSpec (cfg.show_tree.getD true) (ws.map (fun w => Dependency.fromPackage w.package))
      disp (print_warning_list disp cfg ws tree) := by
  induction ws generalizing disp with
  | nil =>
    exact segSpec_pure _ _ _ (fun x => by simp [countDraws])
  | cons w rest ih =>
    have h := segSpec_comp (print_warning_seg disp cfg w tree) (fun d => ih d)
    simpa [print_warning_list] using h

theorem warningsBlock_seg (cfg : OutputConfig) (tree : Tree)
    (ws : List Warning) (disp : List Dependency) :
    SegSpec (cfg.show_tree.getD true) (ws.map (fun w => Dependency.fromPackage w.package))
      disp (warningsBlock disp cfg ws tree) := by
  unfold warningsBlock
  by_cases he : ws.isEmpty
  · rw [if_pos he]
    rw [List.isEmpty_iff.mp he]
    exact segSpec_pure _ _ _ (fun x => by simp [countDraws])
  · rw [if_neg he]
    have h0 : SegSpec (cfg.show_tree.getD true) [] disp
        (.ok [.blank, .statusWarn "found informational advisories for dependencies"] disp) :=
      segSpec_pure _ _ _ (fun x => by simp [countDraws, List.countP_cons])
    have h := segSpec_comp h0 (fun d => print_warning_list_seg cfg tree ws d)
    simpa using h

theorem countDraws_statusLine (x : Dependency) (rep : Report) :
    countDraws x [statusLine rep] = 0 := by
  unfold statusLine
  cases rep.vulnerabilities.found <;> simp [countDraws, List.countP_cons]

theorem countDraws_countBlock (x : Dependency) (rep : Report) :
    countDraws x (countBlock rep) = 0 := by
  unfold countBlock
  cases rep.vulnerabilities.found <;> simp [countDraws, List.countP_cons]

theorem print_report_human_seg {cfg : OutputConfig} {lf : Lockfile} {tree : Tree}
    (rep : Report) (disp : List Dependency)
    (hfmt : cfg.format ≠ OutputFormat.Json) (htree : lf.dependency_tree = some tree) :
    SegSpec (cfg.show_tree.getD true) (findingDeps rep) disp
      (print_report disp cfg rep lf) := by
  unfold print_report
  rw [if_neg hfmt, htree]
  have hs : SegSpec (cfg.show_tree.getD true) [] disp (.ok [statusLine rep] disp) :=
    segSpec_pure _ _ _ (fun x => countDraws_statusLine x rep)
  have hc : ∀ d3, SegSpec (cfg.show_tree.getD true) [] d3
      (RunResult.ok (countBlock rep) d3) :=
    fun d3 => segSpec_pure _ _ _ (fun x => countDraws_countBlock x rep)
  have hwc : ∀ d2, SegSpec (cfg.show_tree.getD true)
      ((rep.warnings.map (fun w => Dependency.fromPackage w.package)) ++ [])
      d2 ((warningsBlock d2 cfg rep.warnings tree).andThen
            (fun d3 => RunResult.ok (countBlock rep) d3)) :=
    fun d2 => segSpec_comp (warningsBlock_seg cfg tree rep.warnings d2) hc
  have hvwc : ∀ d, SegSpec (cfg.show_tree.getD true)
      ((rep.vulnerabilities.list.map (fun v => Dependency.fromPackage v.package)) ++
        ((rep.warnings.map (fun w => Dependency.fromPackage w.package)) ++ []))
      d ((print_vulnerability_list d cfg rep.vulnerabilities.list tree).andThen
          (fun d2 => (warningsBlock d2 cfg rep.warnings tree).andThen
            (fun d3 => RunResult.ok (countBlock rep) d3))) :=
    fun d => segSpec_comp (print_vulnerability_list_seg cfg tree rep.vulnerabilities.list d) hwc
  have h := segSpec_comp hs hvwc
  simpa [findingDeps] using h

/-! ## Projection lemmas -/

theorem linesBy_append (sel : OutputEvent → Option String) (a b : List OutputEvent) :
    linesBy sel (a ++ b) = linesBy sel a ++ linesBy sel b :=
  List.filterMap_append a b sel

theorem treeBlind_idSel : TreeBlind idSel :=
  ⟨fun _ => rfl, fun _ _ => rfl⟩

theorem treeBlind_warnCrateSel : TreeBlind warnCrateSel :=
  ⟨fun _ => rfl, fun _ _ => rfl⟩

theorem treeBlind_urlSel : TreeBlind urlSel :=
  ⟨fun _ => rfl, fun _ _ => rfl⟩

theorem treeBlind_solutionSel : TreeBlind solutionSel :=
  ⟨fun _ => rfl, fun _ _ => rfl⟩

theorem treeBlind_statusErrSel : TreeBlind statusErrSel :=
  ⟨fun _ => rfl, fun _ _ => rfl⟩

theorem linesBy_print_tree {sel : OutputEvent → Option String} (hsel : TreeBlind sel)
    (disp : List Dependency) (cfg : OutputConfig) (c : Color) (p : Package) (tree : Tree) :
    linesBy sel (print_tree disp cfg c p tree).output = [] := by
  unfold print_tree
  by_cases hmem : Dependency.fromPackage p ∈ disp
  · rw [if_pos hmem]
    simp [RunResult.output, linesBy]
  · rw [if_neg hmem]
    by_cases hst : (cfg.show_tree.getD true) = false
    · rw [if_pos hst]
      simp [RunResult.output, linesBy]
    · rw [if_neg hst]
      cases hn : tree.nodeOf (Dependency.fromPackage p) <;>
        simp [RunResult.output, linesBy, hsel.1, hsel.2]

theorem print_vulnerability_output (disp : List Dependency) (cfg : OutputConfig)
    (v : Vulnerability) (tree : Tree) :
    (print_vulnerability disp cfg v tree).output =
      vulnerability_attrs v ++ (print_tree disp cfg .red v.package tree).output :=
  RunResult.ok_andThen_output _ _ _

theorem print_warning_output (disp : List Dependency) (cfg : OutputConfig)
    (w : Warning) (tree : Tree) :
    (print_warning disp cfg w tree).output =
      warning_attrs w ++ (print_tree disp cfg .yellow w.package tree).output :=
  RunResult.ok_andThen_output _ _ _

theorem linesBy_print_vulnerability {sel : OutputEvent → Option String}
    (hsel : TreeBlind sel) (disp : List Dependency) (cfg : OutputConfig)
    (v : Vulnerability) (tree : Tree) :
    linesBy sel (print_vulnerability disp cfg v tree).output =
      linesBy sel (vulnerability_attrs v) := by
  rw [print_vulnerability_output, linesBy_append, linesBy_print_tree hsel,
    List.append_nil]

theorem linesBy_print_warning {sel : OutputEvent → Option String}
    (hsel : TreeBlind sel) (disp : List Dependency) (cfg : OutputConfig)
    (w : Warning) (tree : Tree) :
    linesBy sel (print_warning disp cfg w tree).output =
      linesBy sel (warning_attrs w) := by
  rw [print_warning_output, linesBy_append, linesBy_print_tree hsel,
    List.append_nil]

theorem linesBy_vulnerability_list {sel : OutputEvent → Option String}
    {f : Vulnerability → List String} (hsel : TreeBlind sel)
    (hstep : ∀ v, linesBy sel (vulnerability_attrs v) = f v)
    (cfg : OutputConfig) (tree : Tree) (vs : List Vulnerability) (disp : List Dependency)
    {out : List OutputEvent} {d' : List Dependency}
    (h : print_vulnerability_list disp cfg vs tree = .ok out d') :
    linesBy sel out = (vs.map f).flatten := by
  induction vs generalizing disp out with
  | nil =>
    obtain ⟨h1, -⟩ := RunResult.ok.inj h
    rw [← h1]
    rfl
  | cons v rest ih =>
    obtain ⟨o1, dd1, o2, h1, h2, h3⟩ := RunResult.andThen_ok_elim h
    subst h3
    rw [linesBy_append]
    have ho1 : linesBy sel o1 = f v := by
      have : (print_vulnerability disp cfg v tree).output = o1 := by
        rw [h1]
        rfl
      rw [← this, linesBy_print_vulnerability hsel, hstep]
    rw [ho1, ih dd1 h2]
    rfl

theorem linesBy_warning_list {sel : OutputEvent → Option String}
    {g : Warning → List String} (hsel : TreeBlind sel)
    (hstep : ∀ w, linesBy sel (warning_attrs w) = g w)
    (cfg : OutputConfig) (tree : Tree) (ws : List Warning) (disp : List Dependency)
    {out : List OutputEvent} {d' : List Dependency}
    (h : print_warning_list disp cfg ws tree = .ok out d') :
    linesBy sel out = (ws.map g).flatten := by
  induction ws generalizing disp out with
  | nil =>
    obtain ⟨h1, -⟩ := RunResult.ok.inj h
    rw [← h1]
    rfl
  | cons w rest ih =>
    obtain ⟨o1, dd1, o2, h1, h2, h3⟩ := RunResult.andThen_ok_elim h
    subst h3
    rw [linesBy_append]
    have ho1 : linesBy sel o1 = g w := by
      have : (print_warning disp cfg w tree).output = o1 := by
        rw [h1]
        rfl
      rw [← this, linesBy_print_warning hsel, hstep]
    rw [ho1, ih dd1 h2]
    rfl

theorem flatten_map_singleton {α β : Type} (l : List α) (g : α → β) :
    (l.map (fun a => [g a])).flatten = l.map g := by
  induction l with
  | nil => rfl
  | cons a rest ih => simp [ih]

theorem flatten_map_nil {α β : Type} (l : List α) :
    (l.map (fun _ => ([] : List β))).flatten = [] := by
  induction l with
  | nil => rfl
  | cons a rest ih => simp [ih]

/-! ## Attribute-line projections of the two renderers -/

theorem idLines_vulnerability_attrs (v : Vulnerability) :
    linesBy idSel (vulnerability_attrs v) = [v.advisory.id.name] := by
  unfold vulnerability_attrs print_attr
  cases v.advisory.id.canonicalUrl <;> cases v.advisory.url <;>
    simp [linesBy, idSel]

theorem idLines_warning_attrs (w : Warning) :
    linesBy idSel (warning_attrs w) = [] := by
  unfold warning_attrs print_attr
  cases w.advisory.id.canonicalUrl <;> cases w.advisory.url <;>
    simp [linesBy, idSel]

theorem warnCrateLines_vulnerability_attrs (v : Vulnerability) :
    linesBy warnCrateSel (vulnerability_attrs v) = [] := by
  unfold vulnerability_attrs print_attr
  cases v.advisory.id.canonicalUrl <;> cases v.advisory.url <;>
    simp [linesBy, warnCrateSel]

theorem warnCrateLines_warning_attrs (w : Warning) :
    linesBy warnCrateSel (warning_attrs w) = [w.package.name] := by
  unfold warning_attrs print_attr
  cases w.advisory.id.canonicalUrl <;> cases w.advisory.url <;>
    simp [linesBy, warnCrateSel]

theorem urlLines_vulnerability_attrs (v : Vulnerability) :
    linesBy urlSel (vulnerability_attrs v) = urlChoice v.advisory := by
  unfold vulnerability_attrs print_attr urlChoice
  cases v.advisory.id.canonicalUrl <;> cases v.advisory.url <;>
    simp [linesBy, urlSel]

theorem urlLines_warning_attrs (w : Warning) :
    linesBy urlSel (warning_attrs w) = urlChoice w.advisory := by
  unfold warning_attrs print_attr urlChoice
  cases w.advisory.id.canonicalUrl <;> cases w.advisory.url <;>
    simp [linesBy, urlSel]

theorem solutionLines_vulnerability_attrs (v : Vulnerability) :
    linesBy solutionSel (vulnerability_attrs v) =
      [String.intercalate " OR " v.versions.patched] := by
  unfold vulnerability_attrs print_attr
  cases v.advisory.id.canonicalUrl <;> cases v.advisory.url <;>
    simp [linesBy, solutionSel]

theorem statusErrLines_vulnerability_attrs (v : Vulnerability) :
    linesBy statusErrSel (vulnerability_attrs v) = [] := by
  unfold vulnerability_attrs print_attr
  cases v.advisory.id.canonicalUrl <;> cases v.advisory.url <;>
    simp [linesBy, statusErrSel]

theorem statusErrLines_warning_attrs (w : Warning) :
    linesBy statusErrSel (warning_attrs w) = [] := by
  unfold warning_attrs print_attr
  cases w.advisory.id.canonicalUrl <;> cases w.advisory.url <;>
    simp [linesBy, statusErrSel]

theorem linesBy_warningsBlock {sel : OutputEvent → Option String}
    {g : Warning → List String} (hsel : TreeBlind sel)
    (hstep : ∀ w, linesBy sel (warning_attrs w) = g w)
    (hblank : sel .blank = none) (hwarn : ∀ s, sel (.statusWarn s) = none)
    {d1 : List Dependency} {cfg : OutputConfig} {ws : List Warning} {tree : Tree}
    {wout : List OutputEvent} {d' : List Dependency}
    (hw : warningsBlock d1 cfg ws tree = .ok wout d') :
    linesBy sel wout = (ws.map g).flatten := by
  by_cases he : ws.isEmpty
  · rw [warningsBlock, if_pos he] at hw
    obtain ⟨h1, -⟩ := RunResult.ok.inj hw
    rw [← h1, List.isEmpty_iff.mp he]
    rfl
  · rw [warningsBlock, if_neg he] at hw
    obtain ⟨o1, dd1, o2, h1, h2, h3⟩ := RunResult.andThen_ok_elim hw
    subst h3
    obtain ⟨e1, -⟩ := RunResult.ok.inj h1
    rw [linesBy_append, ← e1]
    rw [linesBy_warning_list hsel hstep cfg tree ws dd1 h2]
    simp [linesBy, hblank, hwarn]

theorem print_report_human_decomp {disp : List Dependency} {cfg : OutputConfig}
    {rep : Report} {lf : Lockfile} {tree : Tree} {vout wout : List OutputEvent}
    {d1 d' : List Dependency}
    (hfmt : cfg.format ≠ OutputFormat.Json)
    (htree : lf.dependency_tree = some tree)
    (hv : print_vulnerability_list disp cfg rep.vulnerabilities.list tree = .ok vout d1)
    (hw : warningsBlock d1 cfg rep.warnings tree = .ok wout d') :
    print_report disp cfg rep lf =
      .ok (statusLine rep :: (vout ++ (wout ++ countBlock rep))) d' := by
  rw [print_report, if_neg hfmt, htree]
  have h3 : (warningsBlock d1 cfg rep.warnings tree).andThen
      (fun d3 => RunResult.ok (countBlock rep) d3) = .ok (wout ++ countBlock rep) d' :=
    RunResult.andThen_ok_intro hw rfl
  have h2 : (print_vulnerability_list disp cfg rep.vulnerabilities.list tree).andThen
      (fun d2 => (warningsBlock d2 cfg rep.warnings tree).andThen
        (fun d3 => RunResult.ok (countBlock rep) d3)) =
      .ok (vout ++ (wout ++ countBlock rep)) d' :=
    RunResult.andThen_ok_intro hv h3
  have h1 := @RunResult.andThen_ok_intro (.ok [statusLine rep] disp)
    (fun d => (print_vulnerability_list d cfg rep.vulnerabilities.list tree).andThen
      (fun d2 => (warningsBlock d2 cfg rep.warnings tree).andThen
        (fun d3 => RunResult.ok (countBlock rep) d3)))
    [statusLine rep] (vout ++ (wout ++ countBlock rep)) disp d' rfl h2
  simpa using h1

/-! ## Claim theorems -/

/-- C1: In human mode with `show_tree` resolving to true, over a whole
presentation run started with a fresh presenter, every package identity
that appears in at least one finding (vulnerabilities and warnings
combined, across both renderers) has its inverse dependency tree drawn
exactly once in the run's output. -/
theorem tree_drawn_exactly_once {config : OutputConfig} {report : Report}
    {lockfile : Lockfile} {out : List OutputEvent} {d' : List Dependency}
    {x : Dependency}
    (hfmt : config.format ≠ OutputFormat.Json)
    (hst : config.show_tree.getD true = true)
    (hok : print_report [] config report lockfile = .ok out d')
    (hx : x ∈ findingDeps report) :
    countDraws x out = 1 := by
  cases htree : lockfile.dependency_tree with
  | none =>
    rw [print_report, if_neg hfmt, htree] at hok
    exact absurd hok (by simp)
  | some tree =>
    obtain ⟨-, hc⟩ := print_report_human_seg report [] hfmt htree out d' hok
    rw [hc x, if_pos ⟨hst, hx, by simp⟩]

theorem tree_drawn_exactly_once_witness :
    countDraws sampleDep sampleOut = 1 :=
  @tree_drawn_exactly_once humanConfig sampleReport sampleLockfile sampleOut
    sampleDisp sampleDep (by decide) (by decide) (by decide) (by decide)

/-- C2: With `format == Json` (the structured mode), `print_report`
only serializes the report to the output stream: the result is exactly
the serialization event, the displayed set is unchanged, and nothing
about the lockfile, the dependency tree, or the `show_tree` flag is
consulted (the result is the same constant for every lockfile and every
`show_tree` value). -/
theorem structured_mode_serializes {displayed : List Dependency}
    {config : OutputConfig} {report : Report} {lockfile : Lockfile}
    (hfmt : config.format = OutputFormat.Json) :
    print_report displayed config report lockfile = .ok [.json report] displayed := by
  rw [print_report, if_pos hfmt]

theorem structured_mode_serializes_witness :
    print_report [] jsonConfig sampleReport badLockfile =
      .ok [.json sampleReport] [] :=
  structured_mode_serializes (by decide)

/-- C3: `print_tree` inserts the package identity into the displayed
set before consulting `show_tree`: with `show_tree` resolving to false
the call returns without output but marks the identity as seen, and any
later `print_tree` call for the same identity — under any configuration,
color and tree, in particular with `show_tree` true — returns without
output and without changing the set. -/
theorem insert_before_show_tree_check {displayed : List Dependency}
    {config1 : OutputConfig} {color1 : Color} {package : Package} {tree1 : Tree}
    (h1 : config1.show_tree.getD true = false)
    (h2 : Dependency.fromPackage package ∉ displayed) :
    print_tree displayed config1 color1 package tree1 =
      .ok [] (Dependency.fromPackage package :: displayed) ∧
    Dependency.fromPackage package ∈ (Dependency.fromPackage package :: displayed) ∧
    ∀ (config2 : OutputConfig) (color2 : Color) (tree2 : Tree),
      print_tree (Dependency.fromPackage package :: displayed) config2 color2 package tree2 =
        .ok [] (Dependency.fromPackage package :: displayed) := by
  refine ⟨?_, List.mem_cons_self _ _, fun config2 color2 tree2 => ?_⟩
  · rw [print_tree, if_neg h2, if_pos h1]
  · rw [print_tree, if_pos (List.mem_cons_self _ _)]

theorem insert_before_show_tree_check_witness :
    print_tree [] noTreeConfig Color.red samplePackage sampleTree =
      .ok [] [sampleDep] ∧
    print_tree [sampleDep] humanConfig Color.red samplePackage sampleTree =
      .ok [] [sampleDep] :=
  ⟨(@insert_before_show_tree_check [] noTreeConfig Color.red samplePackage sampleTree
      (by decide) (by decide)).1,
   (@insert_before_show_tree_check [] noTreeConfig Color.red samplePackage sampleTree
      (by decide) (by decide)).2.2 humanConfig Color.red sampleTree⟩

/-- C8: In human mode, when the dependency tree derived from the
lockfile is invalid, `print_report` aborts fatally right after the
initial status line and before any finding is rendered: the whole output
of the run is the status line alone. -/
theorem invalid_tree_fatal {displayed : List Dependency} {config : OutputConfig}
    {report : Report} {lockfile : Lockfile}
    (hfmt : config.format ≠ OutputFormat.Json)
    (htree : lockfile.dependency_tree = none) :
    print_report displayed config report lockfile =
      .fatal [statusLine report] "invalid Cargo.lock dependency tree" := by
  rw [print_report, if_neg hfmt, htree]

theorem invalid_tree_fatal_witness :
    print_report [] humanConfig sampleReport badLockfile =
      .fatal [statusLine sampleReport] "invalid Cargo.lock dependency tree" :=
  invalid_tree_fatal (by decide) (by decide)

/-- C9: When `print_tree` proceeds to draw (identity not yet seen,
`show_tree` resolving to true), it looks the package's node up by
unguarded indexing: if the identity has no node in the tree the run
aborts at the lookup (after the header, instead of skipping the tree),
while under the precondition that the node exists the tree is rendered
normally. -/
theorem missing_tree_node_aborts {displayed : List Dependency}
    {config : OutputConfig} {color : Color} {package : Package} {tree : Tree}
    (h1 : Dependency.fromPackage package ∉ displayed)
    (h2 : config.show_tree.getD true = true)
    (h3 : tree.nodeOf (Dependency.fromPackage package) = none) :
    print_tree displayed config color package tree =
      .fatal [.treeHeader color] "no entry found for key" ∧
    ∀ (t2 : Tree) (n : Nat), t2.nodeOf (Dependency.fromPackage package) = some n →
      print_tree displayed config color package t2 =
        .ok [.treeHeader color, .treeRender (Dependency.fromPackage package) n]
          (Dependency.fromPackage package :: displayed) := by
  have hst : ¬((config.show_tree.getD true) = false) := by rw [h2]; simp
  constructor
  · rw [print_tree, if_neg h1, if_neg hst, h3]
  · intro t2 n hn
    rw [print_tree, if_neg h1, if_neg hst, hn]

theorem missing_tree_node_aborts_witness :
    print_tree [] humanConfig Color.red samplePackage emptyTree =
      .fatal [OutputEvent.treeHeader Color.red] "no entry found for key" :=
  (missing_tree_node_aborts (by decide) (by decide) (by decide)).1

/-- C10: The displayed set owned by a presenter is never cleared:
whenever two `print_report` calls run in sequence on the same presenter
state, every identity whose tree was drawn during the first call is in
the set the first call leaves behind, and every identity in that set is
still in the set after the second call and is never drawn during the
second call. -/
theorem displayed_set_persists {d0 d1 d2 : List Dependency}
    {config1 config2 : OutputConfig} {report1 report2 : Report}
    {lockfile1 lockfile2 : Lockfile} {out1 out2 : List OutputEvent} {x : Dependency}
    (h1 : print_report d0 config1 report1 lockfile1 = .ok out1 d1)
    (h2 : print_report d1 config2 report2 lockfile2 = .ok out2 d2) :
    (1 ≤ countDraws x out1 → x ∈ d1) ∧
    (x ∈ d1 → x ∈ d2 ∧ countDraws x out2 = 0) := by
  constructor
  · intro hcd
    by_cases hf : config1.format = OutputFormat.Json
    · rw [print_report, if_pos hf] at h1
      obtain ⟨e1, -⟩ := RunResult.ok.inj h1
      rw [← e1] at hcd
      simp [countDraws, List.countP_cons] at hcd
    · cases htree : lockfile1.dependency_tree with
      | none =>
        rw [print_report, if_neg hf, htree] at h1
        exact absurd h1 (by simp)
      | some tree =>
        obtain ⟨m, c⟩ := print_report_human_seg report1 d0 hf htree out1 d1 h1
        rw [c x] at hcd
        by_cases hcnd : config1.show_tree.getD true = true ∧
            x ∈ findingDeps report1 ∧ x ∉ d0
        · exact (m x).2 (Or.inr hcnd.2.1)
        · rw [if_neg hcnd] at hcd
          omega
  · intro hx
    by_cases hf : config2.format = OutputFormat.Json
    · rw [print_report, if_pos hf] at h2
      obtain ⟨e1, e2⟩ := RunResult.ok.inj h2
      rw [← e1, ← e2]
      exact ⟨hx, by simp [countDraws, List.countP_cons]⟩
    · cases htree : lockfile2.dependency_tree with
      | none =>
        rw [print_report, if_neg hf, htree] at h2
        exact absurd h2 (by simp)
      | some tree =>
        obtain ⟨m, c⟩ := print_report_human_seg report2 d1 hf htree out2 d2 h2
        refine ⟨(m x).2 (Or.inl hx), ?_⟩
        rw [c x, if_neg (by tauto)]

theorem displayed_set_persists_witness :
    (1 ≤ countDraws sampleDep sampleOut → sampleDep ∈ sampleDisp) ∧
    (sampleDep ∈ sampleDisp →
      sampleDep ∈ sampleDisp2 ∧ countDraws sampleDep sampleOut2 = 0) :=
  @displayed_set_persists [] sampleDisp sampleDisp2 humanConfig humanConfig
    sampleReport sampleReport sampleLockfile sampleLockfile sampleOut sampleOut2
    sampleDep (by decide) (by decide)

/-- C4: In human mode the report output has the fixed order: the status
line first, then the vulnerability renders (whose ID lines are exactly
the report's vulnerability identifiers, in list order, with no warning
lines among them), then the warnings section (empty when there are no
warnings; otherwise opened by a blank separator and the section header,
and containing exactly the report's warning crate lines in list order
and no vulnerability ID lines), then the count block. -/
theorem human_output_order {disp : List Dependency} {cfg : OutputConfig}
    {rep : Report} {lf : Lockfile} {tree : Tree} {vout wout : List OutputEvent}
    {d1 d' : List Dependency}
    (hfmt : cfg.format ≠ OutputFormat.Json)
    (htree : lf.dependency_tree = some tree)
    (hv : print_vulnerability_list disp cfg rep.vulnerabilities.list tree = .ok vout d1)
    (hw : warningsBlock d1 cfg rep.warnings tree = .ok wout d') :
    print_report disp cfg rep lf =
      .ok (statusLine rep :: (vout ++ (wout ++ countBlock rep))) d' ∧
    idLines vout = rep.vulnerabilities.list.map (fun v => v.advisory.id.name) ∧
    warnCrateLines vout = [] ∧
    warnCrateLines wout = rep.warnings.map (fun w => w.package.name) ∧
    idLines wout = [] ∧
    (rep.warnings.isEmpty = true → wout = []) ∧
    (rep.warnings.isEmpty = false →
      wout.take 2 = [OutputEvent.blank,
        OutputEvent.statusWarn "found informational advisories for dependencies"]) := by
  refine ⟨print_report_human_decomp hfmt htree hv hw, ?_, ?_, ?_, ?_, ?_, ?_⟩
  · have h := linesBy_vulnerability_list treeBlind_idSel idLines_vulnerability_attrs
      cfg tree rep.vulnerabilities.list disp hv
    rw [idLines, h, flatten_map_singleton]
  · have h := linesBy_vulnerability_list treeBlind_warnCrateSel
      warnCrateLines_vulnerability_attrs cfg tree rep.vulnerabilities.list disp hv
    rw [warnCrateLines, h, flatten_map_nil]
  · have h := linesBy_warningsBlock treeBlind_warnCrateSel warnCrateLines_warning_attrs
      rfl (fun _ => rfl) hw
    rw [warnCrateLines, h, flatten_map_singleton]
  · have h := linesBy_warningsBlock treeBlind_idSel idLines_warning_attrs
      rfl (fun _ => rfl) hw
    rw [idLines, h, flatten_map_nil]
  · intro he
    rw [warningsBlock, if_pos he] at hw
    obtain ⟨h1, -⟩ := RunResult.ok.inj hw
    exact h1.symm
  · intro he
    have hne : ¬(rep.warnings.isEmpty = true) := by rw [he]; simp
    rw [warningsBlock, if_neg hne] at hw
    obtain ⟨o1, dd1, o2, h1, h2, h3⟩ := RunResult.andThen_ok_elim hw
    subst h3
    obtain ⟨e1, -⟩ := RunResult.ok.inj h1
    rw [← e1]
    rfl

theorem human_output_order_witness :
    print_report [] humanConfig sampleReport sampleLockfile =
      .ok (statusLine sampleReport ::
        (sampleVout ++ (sampleWout ++ countBlock sampleReport))) sampleDfin ∧
    idLines sampleVout =
      sampleReport.vulnerabilities.list.map (fun v => v.advisory.id.name) ∧
    warnCrateLines sampleWout =
      sampleReport.warnings.map (fun w => w.package.name) :=
  let h := @human_output_order [] humanConfig sampleReport sampleLockfile sampleTree
    sampleVout sampleWout sampleD1 sampleDfin (by decide) (by decide) (by decide) (by decide)
  ⟨h.1, h.2.1, h.2.2.2.1⟩

/-- C5: In human mode the final count block is appended to the output
exactly when `report.vulnerabilities.found` is true, in which case it is
a blank separator followed by the count line, singular for the report's
`count` field equal to 1 and plural otherwise; when `found` is false, no
error status line (and in particular no count line) appears anywhere in
the output. -/
theorem count_block_iff_found {disp : List Dependency} {cfg : OutputConfig}
    {rep : Report} {lf : Lockfile} {tree : Tree} {vout wout : List OutputEvent}
    {d1 d' : List Dependency}
    (hfmt : cfg.format ≠ OutputFormat.Json)
    (htree : lf.dependency_tree = some tree)
    (hv : print_vulnerability_list disp cfg rep.vulnerabilities.list tree = .ok vout d1)
    (hw : warningsBlock d1 cfg rep.warnings tree = .ok wout d') :
    print_report disp cfg rep lf =
      .ok ((statusLine rep :: (vout ++ wout)) ++ countBlock rep) d' ∧
    countBlock rep = (if rep.vulnerabilities.found = true then
        [OutputEvent.blank, OutputEvent.statusErr
          (if rep.vulnerabilities.count = 1 then "1 vulnerability found!"
           else toString rep.vulnerabilities.count ++ " vulnerabilities found!")]
      else []) ∧
    statusErrLines (statusLine rep :: (vout ++ wout)) =
      (if rep.vulnerabilities.found = true then ["Vulnerable crates found!"] else []) := by
  refine ⟨?_, ?_, ?_⟩
  · have h := print_report_human_decomp hfmt htree hv hw
    simpa using h
  · cases hf : rep.vulnerabilities.found <;> simp [countBlock, hf]
  · have hvl : linesBy statusErrSel vout = [] := by
      rw [linesBy_vulnerability_list treeBlind_statusErrSel
        statusErrLines_vulnerability_attrs cfg tree rep.vulnerabilities.list disp hv]
      rw [flatten_map_nil]
    have hwl : linesBy statusErrSel wout = [] := by
      rw [linesBy_warningsBlock treeBlind_statusErrSel statusErrLines_warning_attrs
        rfl (fun _ => rfl) hw]
      rw [flatten_map_nil]
    have happ : List.filterMap statusErrSel (vout ++ wout) = [] := by
      have h := linesBy_append statusErrSel vout wout
      rw [hvl, hwl] at h
      exact h
    cases hf : rep.vulnerabilities.found
    · rw [if_neg (by simp [hf])]
      have hsel : statusErrSel (statusLine rep) = none := by
        rw [statusLine, if_neg (by simp [hf])]
        rfl
      rw [statusErrLines, linesBy, List.filterMap_cons, hsel]
      exact happ
    · rw [if_pos (by simp [hf])]
      have hsel : statusErrSel (statusLine rep) = some "Vulnerable crates found!" := by
        rw [statusLine, if_pos (by simp [hf])]
        rfl
      rw [statusErrLines, linesBy, List.filterMap_cons, hsel, happ]

theorem count_block_iff_found_witness :
    print_report [] humanConfig sampleReport sampleLockfile =
      .ok ((statusLine sampleReport :: (sampleVout ++ sampleWout)) ++
        countBlock sampleReport) sampleDfin ∧
    countBlock sampleReport = (if sampleReport.vulnerabilities.found = true then
        [OutputEvent.blank, OutputEvent.statusErr
          (if sampleReport.vulnerabilities.count = 1 then "1 vulnerability found!"
           else toString sampleReport.vulnerabilities.count ++ " vulnerabilities found!")]
      else []) ∧
    statusErrLines (statusLine sampleReport :: (sampleVout ++ sampleWout)) =
      (if sampleReport.vulnerabilities.found = true then ["Vulnerable crates found!"]
       else []) :=
  @count_block_iff_found [] humanConfig sampleReport sampleLockfile sampleTree
    sampleVout sampleWout sampleD1 sampleDfin (by decide) (by decide) (by decide) (by decide)

/-- C6: In both renderers the URL line follows the precedence rule: the
canonical URL resolved from the advisory identifier when it exists,
otherwise the advisory's explicit `url` field, otherwise no URL line at
all; in particular, for any advisory whose identifier has a canonical
URL, that canonical URL is the one shown, whatever the explicit field
holds. -/
theorem url_line_precedence (disp : List Dependency) (cfg : OutputConfig)
    (v : Vulnerability) (w : Warning) (tree : Tree) :
    urlLines (print_vulnerability disp cfg v tree).output = urlChoice v.advisory ∧
    urlLines (print_warning disp cfg w tree).output = urlChoice w.advisory ∧
    ∀ (nm u1 date title : String) (u2 : Option String),
      urlChoice ⟨⟨nm, some u1⟩, date, title, u2⟩ = [u1] := by
  refine ⟨?_, ?_, fun nm u1 date title u2 => rfl⟩
  · rw [urlLines, linesBy_print_vulnerability treeBlind_urlSel,
      urlLines_vulnerability_attrs]
  · rw [urlLines, linesBy_print_warning treeBlind_urlSel, urlLines_warning_attrs]

/-- C7: The Solution line of every rendered vulnerability carries the
patched version ranges joined with the literal separator " OR "; for
ranges ["1.2.3", "2.0.0"] that join is "1.2.3 OR 2.0.0", and for an
empty patched list it is the empty string. -/
theorem solution_line_or_join (disp : List Dependency) (cfg : OutputConfig)
    (v : Vulnerability) (tree : Tree) :
    solutionLines (print_vulnerability disp cfg v tree).output =
      [String.intercalate " OR " v.versions.patched] ∧
    String.intercalate " OR " ["1.2.3", "2.0.0"] = "1.2.3 OR 2.0.0" ∧
    String.intercalate " OR " ([] : List String) = "" := by
  refine ⟨?_, by decide, rfl⟩
  rw [solutionLines, linesBy_print_vulnerability treeBlind_solutionSel,
    solutionLines_vulnerability_attrs]

end CargoAudit
